import Mathlib

/-!
Verification development for the PDFConverter repository.

The repository consists of two modules of orchestration code:
`PDFProcessor` (src/utils/pdfProcessor.ts), which performs PDF-native
transforms through the pdf-lib document model, and `DocumentProcessor`,
which wraps office-format conversions in try/catch boundaries.

The embedding models a loaded PDF document at the page level (the
granularity at which the code manipulates it through the pdf-lib page
API: getPages / copyPages / addPage / removePage / setRotation), and
models external library calls of the DocumentProcessor as oracle
functions returning `Except`.
-/

namespace PDFConverter

/-- Bool test that the second character list begins with the first;
building block for the model of JavaScript String.prototype.includes. -/
def startsWithChars : List Char → List Char → Bool
  | [], _ => true
  | _ :: _, [] => false
  | a :: as, b :: bs => a == b && startsWithChars as bs

/-- Bool test that `needle` occurs contiguously inside the second list. -/
def hasSubChars (needle : List Char) : List Char → Bool
  | [] => startsWithChars needle []
  | c :: rest => startsWithChars needle (c :: rest) || hasSubChars needle rest

/-- Model of JavaScript `s.includes(sub)` (substring containment). -/
def strIncludes (s sub : String) : Bool :=
  hasSubChars sub.toList s.toList

/-- A page of a loaded PDF document: its content (abstracted to an
identifier, since the code never inspects page content) and its rotation
entry, which `setRotation` overwrites. -/
structure Page where
  content : Nat
  rotation : Int
deriving DecidableEq

/-- A loaded PDF document, as the page-level view the code manipulates. -/
structure PDFDoc where
  pages : List Page
deriving DecidableEq

/-- Model of `pdfDoc.getPageCount()`. -/
def PDFDoc.pageCount (d : PDFDoc) : Nat := d.pages.length

/-- The image format argument of `pdfToImages`. -/
inductive ImgFormat
  | jpg
  | png
deriving DecidableEq

/-- The string spliced into the requested MIME type `image/${format}`. -/
def ImgFormat.toStr : ImgFormat → String
  | .jpg => "jpg"
  | .png => "png"

/-- The canvas image produced for one page by `pdfToImages`: canvas
dimensions, fill colour, the only annotation drawn (the page-number
label), and the MIME type and quality passed to `canvas.toBlob`. -/
structure CanvasImage where
  width : Nat
  height : Nat
  background : String
  label : String
  mimeType : String
  quality : ℚ
deriving DecidableEq

/-- Default canvas value used with `List.getD`. -/
def defaultCanvas : CanvasImage :=
  { width := 0, height := 0, background := "", label := "", mimeType := "", quality := 0 }

/-- An input image file for `imagesToPdf`: its declared MIME type
(`file.type`) and the intrinsic dimensions reported by
`embedPng`/`embedJpg`. -/
structure ImageFile where
  mimeType : String
  width : ℚ
  height : ℚ
deriving DecidableEq

/-- Which embedding call `imagesToPdf` chose for an image. -/
inductive EmbedKind
  | png
  | jpg
deriving DecidableEq

/-- The image drawn on one output page of `imagesToPdf`: the embedding
used and the rectangle passed to `page.drawImage`. -/
structure PlacedImage where
  kind : EmbedKind
  x : ℚ
  y : ℚ
  w : ℚ
  h : ℚ
deriving DecidableEq

/-- Default placed-image value used with `List.getD`. -/
def defaultPlaced : PlacedImage :=
  { kind := .jpg, x := 0, y := 0, w := 0, h := 0 }

/-- Width of the page created by `pdfDoc.addPage()` with no argument
(the PDF library's default page size, A4 in points: 595.28). -/
def pageW : ℚ := 59528 / 100

/-- Height of the default page (A4 in points: 841.89). -/
def pageH : ℚ := 84189 / 100

namespace PDFProcessor

/-- Model of `PDFProcessor.pdfToImages`: for each page index i of the
loaded document, build a 595x842 canvas, fill it white, draw the text
`Page ${i+1}`, and encode it via `canvas.toBlob` with MIME type
`image/${format}` and quality 0.9. -/
def pdfToImages (d : PDFDoc) (format : ImgFormat) : List CanvasImage :=
  (List.range d.pages.length).map (fun i =>
    { width := 595, height := 842, background := "white",
      label := "Page " ++ toString (i + 1),
      mimeType := "image/" ++ format.toStr,
      quality := 9 / 10 })

/-- Body of the `imagesToPdf` loop for one image file: choose
`embedPng` when the declared MIME type includes "png" else `embedJpg`,
read the default page size, scale to fit preserving the aspect ratio,
and draw centered. -/
def embedImagePage (file : ImageFile) : PlacedImage :=
  let kind := if strIncludes file.mimeType "png" then EmbedKind.png else EmbedKind.jpg
  let width := pageW
  let height := pageH
  let imageAspectRatio := file.width / file.height
  let pageAspectRatio := width / height
  let dims :=
    if imageAspectRatio > pageAspectRatio then
      (width, width / imageAspectRatio)
    else
      (height * imageAspectRatio, height)
  { kind := kind, x := (width - dims.1) / 2, y := (height - dims.2) / 2,
    w := dims.1, h := dims.2 }

/-- Model of `PDFProcessor.imagesToPdf`: one new page per input image,
each holding its placed image. -/
def imagesToPdf (files : List ImageFile) : List PlacedImage :=
  files.map embedImagePage

/-- Model of `PDFProcessor.mergePdfs`: for each input in list order,
copy all of its pages (in their original order) and append each to the
merged document. -/
def mergePdfs (files : List PDFDoc) : PDFDoc :=
  { pages := files.foldl (fun merged file => merged ++ file.pages) [] }

/-- Model of `PDFProcessor.splitPdf`: for each page index i of the
input, create a fresh document, copy page i into it, and collect the
resulting single-page documents in order. -/
def splitPdf (d : PDFDoc) : List PDFDoc :=
  (List.range d.pageCount).map (fun i => { pages := [d.pages.getD i { content := 0, rotation := 0 }] })

/-- Model of `PDFProcessor.rotatePdf`: `page.setRotation({angle: degrees})`
on every page, overwriting the rotation entry with the given value. -/
def rotatePdf (d : PDFDoc) (degrees : Int) : PDFDoc :=
  { pages := d.pages.map (fun page => { page with rotation := degrees }) }

/-- Model of `PDFProcessor.protectPdf`: loads the document and saves it
again; the password argument is never used (pdf-lib has no encryption
support, the function is a placeholder). -/
def protectPdf (d : PDFDoc) (password : String) : PDFDoc :=
  { pages := d.pages }

end PDFProcessor

/-- Claim C2: protectPdf ignores the password entirely: outputs for any
two passwords coincide, and the output has the same pages (hence the
same page content and page count) as the input. -/
theorem protectPdf_password_noop (d : PDFDoc) (p1 p2 : String) :
    PDFProcessor.protectPdf d p1 = PDFProcessor.protectPdf d p2 ∧
    (PDFProcessor.protectPdf d p1).pages = d.pages ∧
    (PDFProcessor.protectPdf d p1).pageCount = d.pageCount :=
  ⟨rfl, rfl, rfl⟩

/-- Claim C8: rotatePdf sets an absolute rotation: applying it twice
with 90 equals applying it once, and every page of the result carries
rotation 90 (not 180). -/
theorem rotatePdf_absolute (d : PDFDoc) :
    PDFProcessor.rotatePdf (PDFProcessor.rotatePdf d 90) 90 = PDFProcessor.rotatePdf d 90 ∧
    (PDFProcessor.rotatePdf (PDFProcessor.rotatePdf d 90) 90).pages.map Page.rotation =
      List.replicate d.pageCount 90 := by
  constructor
  · simp only [PDFProcessor.rotatePdf, List.map_map]
    rfl
  · simp [PDFProcessor.rotatePdf, PDFDoc.pageCount, List.eq_replicate_iff]

/-- Helper: the merge fold appends the concatenation of all pages. -/
theorem mergeFold_eq_append (files : List PDFDoc) :
    ∀ acc : List Page,
      files.foldl (fun merged file => merged ++ file.pages) acc =
        acc ++ (files.map PDFDoc.pages).flatten := by
  induction files with
  | nil => intro acc; simp
  | cons f rest ih =>
    intro acc
    simp [ih, List.append_assoc]

/-- Counterexample to claim C3 as stated: with a a one-page document and
b the two-page document repeating the same page, a ≠ b yet merging in
either order gives the same output. -/
theorem mergePdfs_commute_cex :
    (⟨[⟨0, 0⟩]⟩ : PDFDoc) ≠ (⟨[⟨0, 0⟩, ⟨0, 0⟩]⟩ : PDFDoc) ∧
    PDFProcessor.mergePdfs [⟨[⟨0, 0⟩]⟩, ⟨[⟨0, 0⟩, ⟨0, 0⟩]⟩] =
      PDFProcessor.mergePdfs [⟨[⟨0, 0⟩, ⟨0, 0⟩]⟩, ⟨[⟨0, 0⟩]⟩] := by
  decide

/-- Claim C3 (amended): the page sequence of mergePdfs is the
concatenation of the inputs' page sequences in input-list order, and
merging two documents of equal page count in the two orders differs
whenever the documents differ. -/
theorem mergePdfs_concat (fs : List PDFDoc) :
    (PDFProcessor.mergePdfs fs).pages = (fs.map PDFDoc.pages).flatten ∧
    ∀ a b : PDFDoc, a.pageCount = b.pageCount → a ≠ b →
      PDFProcessor.mergePdfs [a, b] ≠ PDFProcessor.mergePdfs [b, a] := by
  constructor
  · simp [PDFProcessor.mergePdfs, mergeFold_eq_append]
  · intro a b hlen hne heq
    have hpages : a.pages ++ b.pages = b.pages ++ a.pages := by
      have h1 : (PDFProcessor.mergePdfs [a, b]).pages = a.pages ++ b.pages := by
        simp [PDFProcessor.mergePdfs, mergeFold_eq_append]
      have h2 : (PDFProcessor.mergePdfs [b, a]).pages = b.pages ++ a.pages := by
        simp [PDFProcessor.mergePdfs, mergeFold_eq_append]
      rw [← h1, ← h2, heq]
    have := List.append_inj hpages hlen
    apply hne
    cases a
    cases b
    simp_all

/-- Witness for the amended claim C3 at two distinct one-page documents. -/
theorem mergePdfs_concat_witness :
    PDFProcessor.mergePdfs [⟨[⟨1, 0⟩]⟩, ⟨[⟨2, 0⟩]⟩] ≠
      PDFProcessor.mergePdfs [⟨[⟨2, 0⟩]⟩, ⟨[⟨1, 0⟩]⟩] :=
  (mergePdfs_concat [⟨[⟨1, 0⟩]⟩, ⟨[⟨2, 0⟩]⟩]).2 ⟨[⟨1, 0⟩]⟩ ⟨[⟨2, 0⟩]⟩ (by decide) (by decide)

/-- Claim C4: splitPdf returns exactly pageCount documents, and the
document at index i consists of exactly the single page i of the input. -/
theorem splitPdf_single_pages (d : PDFDoc) :
    (PDFProcessor.splitPdf d).length = d.pageCount ∧
    ∀ i, i < d.pageCount →
      (PDFProcessor.splitPdf d).getD i ⟨[]⟩ =
        ⟨[d.pages.getD i { content := 0, rotation := 0 }]⟩ := by
  constructor
  · simp [PDFProcessor.splitPdf]
  · intro i hi
    have hlen : i < ((List.range d.pageCount).map
        (fun i => ({ pages := [d.pages.getD i { content := 0, rotation := 0 }] } : PDFDoc))).length := by
      simpa using hi
    simp [PDFProcessor.splitPdf, List.getD, List.getElem?_eq_getElem hlen,
      List.getElem?_range hi]

/-- Witness for claim C4 on a concrete three-page document at index 1. -/
theorem splitPdf_single_pages_witness :
    (PDFProcessor.splitPdf ⟨[⟨1, 0⟩, ⟨2, 0⟩, ⟨3, 0⟩]⟩).getD 1 ⟨[]⟩ = ⟨[⟨2, 0⟩]⟩ := by
  have h := (splitPdf_single_pages ⟨[⟨1, 0⟩, ⟨2, 0⟩, ⟨3, 0⟩]⟩).2 1 (by decide)
  simpa using h

/-- Claim C6: pdfToImages produces one image per page; the image for
page index i is the fixed 595x842 white canvas annotated only with the
1-based label `Page (i+1)`, requested with MIME type image/jpg (JPEG)
or image/png (PNG) according to the format argument, at quality 0.9. -/
theorem pdfToImages_placeholder (d : PDFDoc) (format : ImgFormat) :
    (PDFProcessor.pdfToImages d format).length = d.pageCount ∧
    ∀ i, i < d.pageCount →
      (PDFProcessor.pdfToImages d format).getD i defaultCanvas =
        { width := 595, height := 842, background := "white",
          label := "Page " ++ toString (i + 1),
          mimeType := (match format with | .jpg => "image/jpg" | .png => "image/png"),
          quality := 9 / 10 } := by
  constructor
  · simp [PDFProcessor.pdfToImages, PDFDoc.pageCount]
  · intro i hi
    have hi2 : i < d.pages.length := hi
    have hlen : i < (PDFProcessor.pdfToImages d format).length := by
      simpa [PDFProcessor.pdfToImages] using hi2
    cases format <;>
      simp [PDFProcessor.pdfToImages, List.getD, List.getElem?_eq_getElem hlen,
        List.getElem?_range hi2, ImgFormat.toStr] at hlen ⊢

/-- Witness for claim C6 on a concrete one-page document with PNG output. -/
theorem pdfToImages_placeholder_witness :
    (PDFProcessor.pdfToImages ⟨[⟨7, 0⟩]⟩ .png).getD 0 defaultCanvas =
      { width := 595, height := 842, background := "white", label := "Page 1",
        mimeType := "image/png", quality := 9 / 10 } := by
  have h := (pdfToImages_placeholder ⟨[⟨7, 0⟩]⟩ .png).2 0 (by decide)
  simpa using h

namespace PDFProcessor

/-- Model of `pdfDoc.removePage(i)`: pdf-lib asserts the index is within
the current page range and throws otherwise. -/
def removePage (d : PDFDoc) (i : Nat) : Except String PDFDoc :=
  if i < d.pageCount then .ok { pages := d.pages.eraseIdx i }
  else .error "removePage: index out of range"

/-- Model of `pagesToDelete.sort((a, b) => b - a)`: numeric descending
sort. -/
def sortDesc (l : List Int) : List Int :=
  List.insertionSort (· ≥ ·) l

/-- The `sortedPages.forEach` loop of `deletePages`: each index is
guarded against the page count captured before any removal
(`totalPages`); a throw from `removePage` propagates out of the loop. -/
def deleteLoop (totalPages : Int) : List Int → PDFDoc → Except String PDFDoc
  | [], d => .ok d
  | pageIndex :: rest, d =>
    if 0 ≤ pageIndex ∧ pageIndex < totalPages then
      match removePage d pageIndex.toNat with
      | .ok d2 => deleteLoop totalPages rest d2
      | .error e => .error e
    else deleteLoop totalPages rest d

/-- Model of `PDFProcessor.deletePages`: capture the page count, sort
the requested indices in descending order, then run the guarded removal
loop. -/
def deletePages (d : PDFDoc) (pagesToDelete : List Int) : Except String PDFDoc :=
  deleteLoop (d.pageCount : Int) (sortDesc pagesToDelete) d

end PDFProcessor

/-- Helper: the deletion loop ignores a list of indices that all fail
the range guard. -/
theorem deleteLoop_skip (total : Int) (l : List Int) (d : PDFDoc)
    (h : ∀ i ∈ l, ¬(0 ≤ i ∧ i < total)) :
    PDFProcessor.deleteLoop total l d = .ok d := by
  induction l with
  | nil => rfl
  | cons i rest ih =>
    have hi := h i (List.mem_cons_self i rest)
    simp only [PDFProcessor.deleteLoop, if_neg hi]
    exact ih (fun j hj => h j (List.mem_cons_of_mem i hj))

/-- Claim C5: deletePages with the empty list is the identity, and a
request whose indices all lie outside [0, pageCount) is silently
ignored: the call succeeds and returns the document unchanged. -/
theorem deletePages_oob_ignored :
    (∀ d : PDFDoc, PDFProcessor.deletePages d [] = .ok d) ∧
    ∀ (d : PDFDoc) (l : List Int),
      (∀ i ∈ l, i < 0 ∨ (d.pageCount : Int) ≤ i) →
      PDFProcessor.deletePages d l = .ok d := by
  constructor
  · intro d; rfl
  · intro d l h
    apply deleteLoop_skip
    intro i hi
    have hmem : i ∈ l :=
      (List.perm_insertionSort (· ≥ ·) l).mem_iff.mp hi
    have := h i hmem
    omega

/-- Witness for claim C5: a two-page document with requests 5 and -1,
both out of range, is returned unchanged. -/
theorem deletePages_oob_ignored_witness :
    PDFProcessor.deletePages ⟨[⟨1, 0⟩, ⟨2, 0⟩]⟩ [5, -1] = .ok ⟨[⟨1, 0⟩, ⟨2, 0⟩]⟩ :=
  deletePages_oob_ignored.2 ⟨[⟨1, 0⟩, ⟨2, 0⟩]⟩ [5, -1] (by decide)

/-- Helper: on a strictly descending list of indices that pass the
guard and start below the current page count, the deletion loop
succeeds and removes exactly one page per index. -/
theorem deleteLoop_strict_desc (total : Int) :
    ∀ (l : List Int) (d : PDFDoc),
      List.Pairwise (· > ·) l →
      (∀ i ∈ l, 0 ≤ i ∧ i < total) →
      (∀ i ∈ l, i.toNat < d.pageCount) →
      ∃ d2, PDFProcessor.deleteLoop total l d = .ok d2 ∧
        d2.pageCount = d.pageCount - l.length := by
  intro l
  induction l with
  | nil =>
    intro d _ _ _
    exact ⟨d, rfl, by simp⟩
  | cons i rest ih =>
    intro d hpw hin hlt
    have hguard : 0 ≤ i ∧ i < total := hin i (List.mem_cons_self i rest)
    have hi : i.toNat < d.pageCount := hlt i (List.mem_cons_self i rest)
    have hrm : PDFProcessor.removePage d i.toNat = .ok ⟨d.pages.eraseIdx i.toNat⟩ := by
      simp [PDFProcessor.removePage, hi]
    have hcount2 : (⟨d.pages.eraseIdx i.toNat⟩ : PDFDoc).pageCount = d.pageCount - 1 :=
      List.length_eraseIdx_of_lt hi
    obtain ⟨hgt, hpw2⟩ := List.pairwise_cons.mp hpw
    have hin2 : ∀ x ∈ rest, 0 ≤ x ∧ x < total :=
      fun x hx => hin x (List.mem_cons_of_mem i hx)
    have hlt2 : ∀ x ∈ rest, x.toNat < (⟨d.pages.eraseIdx i.toNat⟩ : PDFDoc).pageCount := by
      intro x hx
      have hxi : x < i := hgt x hx
      have hx0 : 0 ≤ x := (hin2 x hx).1
      omega
    obtain ⟨dfin, hrun, hcnt⟩ := ih ⟨d.pages.eraseIdx i.toNat⟩ hpw2 hin2 hlt2
    refine ⟨dfin, ?_, ?_⟩
    · simp only [PDFProcessor.deleteLoop, if_pos hguard, hrm, hrun]
    · rw [hcnt, hcount2]
      simp only [List.length_cons]
      omega

/-- Claim C10: for pairwise-distinct indices all within [0, pageCount),
deletePages succeeds and the result has exactly pageCount minus the
number of requested indices pages. -/
theorem deletePages_distinct_count (d : PDFDoc) (l : List Int)
    (hnd : l.Nodup) (hin : ∀ i ∈ l, 0 ≤ i ∧ i < (d.pageCount : Int)) :
    ∃ d2, PDFProcessor.deletePages d l = .ok d2 ∧
      d2.pageCount = d.pageCount - l.length := by
  have hperm := List.perm_insertionSort (· ≥ ·) l
  have hsorted : List.Pairwise (· ≥ ·) (PDFProcessor.sortDesc l) :=
    List.sorted_insertionSort (· ≥ ·) l
  have hnd2 : (PDFProcessor.sortDesc l).Nodup := hperm.symm.nodup hnd
  have hstrict : List.Pairwise (· > ·) (PDFProcessor.sortDesc l) :=
    (hsorted.and hnd2).imp (fun hab => lt_of_le_of_ne hab.1.le (Ne.symm hab.2) |>.gt)
  have hin2 : ∀ i ∈ PDFProcessor.sortDesc l, 0 ≤ i ∧ i < (d.pageCount : Int) :=
    fun i hi => hin i (hperm.mem_iff.mp hi)
  have hlt : ∀ i ∈ PDFProcessor.sortDesc l, i.toNat < d.pageCount := by
    intro i hi
    have := hin2 i hi
    omega
  obtain ⟨d2, hrun, hcnt⟩ :=
    deleteLoop_strict_desc (d.pageCount : Int) (PDFProcessor.sortDesc l) d hstrict hin2 hlt
  refine ⟨d2, hrun, ?_⟩
  have hlen2 : (PDFProcessor.sortDesc l).length = l.length := hperm.length_eq
  omega

/-- Witness for claim C10: deleting the distinct in-range indices 0 and
2 from a three-page document succeeds and leaves one page. -/
theorem deletePages_distinct_count_witness :
    ∃ d2, PDFProcessor.deletePages ⟨[⟨1, 0⟩, ⟨2, 0⟩, ⟨3, 0⟩]⟩ [0, 2] = .ok d2 ∧
      d2.pageCount = 1 := by
  have h := deletePages_distinct_count ⟨[⟨1, 0⟩, ⟨2, 0⟩, ⟨3, 0⟩]⟩ [0, 2]
    (by decide) (by decide)
  simpa [PDFDoc.pageCount] using h

/-- Default image-file value used with `List.getD`. -/
def defaultImage : ImageFile :=
  { mimeType := "", width := 0, height := 0 }

/-- Claim C9: imagesToPdf draws one image per input file in order; each
image is embedded as PNG exactly when its declared MIME type contains
"png" (else JPEG), scaled to fit the default page by the limiting
dimension (drawn width and height within the page, one of them equal to
the page's), preserving the aspect ratio, and centered. -/
theorem imagesToPdf_fit_aspect :
    (∀ files : List ImageFile,
        (PDFProcessor.imagesToPdf files).length = files.length ∧
        ∀ i, i < files.length →
          (PDFProcessor.imagesToPdf files).getD i defaultPlaced =
            PDFProcessor.embedImagePage (files.getD i defaultImage)) ∧
    ∀ f : ImageFile, 0 < f.width → 0 < f.height →
      (PDFProcessor.embedImagePage f).kind =
        (if strIncludes f.mimeType "png" then EmbedKind.png else EmbedKind.jpg) ∧
      (PDFProcessor.embedImagePage f).w / (PDFProcessor.embedImagePage f).h =
        f.width / f.height ∧
      (PDFProcessor.embedImagePage f).w ≤ pageW ∧
      (PDFProcessor.embedImagePage f).h ≤ pageH ∧
      ((PDFProcessor.embedImagePage f).w = pageW ∨ (PDFProcessor.embedImagePage f).h = pageH) ∧
      (PDFProcessor.embedImagePage f).x = (pageW - (PDFProcessor.embedImagePage f).w) / 2 ∧
      (PDFProcessor.embedImagePage f).y = (pageH - (PDFProcessor.embedImagePage f).h) / 2 := by
  constructor
  · intro files
    constructor
    · simp [PDFProcessor.imagesToPdf]
    · intro i hi
      have hlen : i < (PDFProcessor.imagesToPdf files).length := by
        simpa [PDFProcessor.imagesToPdf] using hi
      simp [PDFProcessor.imagesToPdf, List.getD, List.getElem?_eq_getElem hlen,
        List.getElem?_eq_getElem hi]
  · intro f hw hh
    have hW : (0 : ℚ) < pageW := by norm_num [pageW]
    have hH : (0 : ℚ) < pageH := by norm_num [pageH]
    have hARpos : 0 < f.width / f.height := div_pos hw hh
    have hARne : f.width / f.height ≠ 0 := ne_of_gt hARpos
    by_cases hc : f.width / f.height > pageW / pageH
    · have hred : PDFProcessor.embedImagePage f =
          { kind := if strIncludes f.mimeType "png" then EmbedKind.png else EmbedKind.jpg,
            x := (pageW - pageW) / 2,
            y := (pageH - pageW / (f.width / f.height)) / 2,
            w := pageW, h := pageW / (f.width / f.height) } := by
        simp [PDFProcessor.embedImagePage, hc]
      rw [hred]
      refine ⟨rfl, ?_, le_refl _, ?_, Or.inl rfl, rfl, rfl⟩
      · field_simp
        ring
      · have hlt : pageW < f.width / f.height * pageH := (div_lt_iff₀ hH).mp hc
        rw [div_le_iff₀ hARpos]
        linarith
    · have hred : PDFProcessor.embedImagePage f =
          { kind := if strIncludes f.mimeType "png" then EmbedKind.png else EmbedKind.jpg,
            x := (pageW - pageH * (f.width / f.height)) / 2,
            y := (pageH - pageH) / 2,
            w := pageH * (f.width / f.height), h := pageH } := by
        simp [PDFProcessor.embedImagePage, hc]
      rw [hred]
      have hle : f.width / f.height ≤ pageW / pageH := le_of_not_lt hc
      refine ⟨rfl, ?_, ?_, le_refl _, Or.inr rfl, rfl, rfl⟩
      · field_simp
        ring
      · have := (le_div_iff₀ hH).mp hle
        linarith

/-- Witness for claim C9 on a 100x50 PNG image: embedded as PNG with
the drawn aspect ratio equal to 100/50. -/
theorem imagesToPdf_fit_aspect_witness :
    (PDFProcessor.embedImagePage ⟨"image/png", 100, 50⟩).kind = EmbedKind.png ∧
    (PDFProcessor.embedImagePage ⟨"image/png", 100, 50⟩).w /
      (PDFProcessor.embedImagePage ⟨"image/png", 100, 50⟩).h = (100 : ℚ) / 50 := by
  have h := imagesToPdf_fit_aspect.2 ⟨"image/png", 100, 50⟩ (by norm_num) (by norm_num)
  refine ⟨?_, h.2.1⟩
  rw [h.1]
  decide

/-- A binary blob result: its content (abstracted) and MIME type. -/
structure Blob where
  data : String
  mime : String
deriving DecidableEq

/-- A caller-supplied input file as the DocumentProcessor sees it: the
byte content is only ever handed to library oracles, so the model keeps
the part the code itself inspects, the file name. -/
structure FileInput where
  name : String
deriving DecidableEq

/-- An XLSX worksheet as an opaque value handed between library calls. -/
def Sheet : Type := String

/-- The workbook object returned by `XLSX.read`: its sheet names and the
`Sheets` map indexed by name. -/
structure Workbook where
  sheetNames : List String
  sheets : String → Sheet

/-- Oracles for the library calls a DocumentProcessor method awaits
inside its try block; each may reject (`Except.error` carries the
original error value). `createTextPdf` is the call into
PDFProcessor.createTextPdf, whose jsPDF rendering is delegated to an
external library and may likewise reject. -/
structure ConvOracles where
  extractRawText : Except String String
  xlsxRead : Except String Workbook
  sheetToCsv : Sheet → String
  createTextPdf : String → String → Except String Blob
  xlsxWrite : List (List String) → String → Except String String

/-- Model of `file.name.replace(/\.[^/.]+$/, '.pdf')`: if the name ends
in a dot followed by one or more characters none of which is a dot or a
slash, that final extension is replaced by ".pdf"; otherwise the name
is unchanged. -/
def replaceExtWithPdf (name : String) : String :=
  let rev := name.toList.reverse
  let ext := rev.takeWhile (fun c => c != '.' && c != '/')
  if ext.length > 0 && rev.getD ext.length ' ' == '.' then
    ((rev.drop (ext.length + 1)).reverse ++ ".pdf".toList).asString
  else name

/-- MIME type used by `pdfToWord`. -/
def wordMime : String :=
  "application/vnd.openxmlformats-officedocument.wordprocessingml.document"

/-- MIME type used by `pdfToExcel`. -/
def xlsxMime : String :=
  "application/vnd.openxmlformats-officedocument.spreadsheetml.sheet"

/-- MIME type used by `pdfToPowerPoint`. -/
def pptMime : String :=
  "application/vnd.openxmlformats-officedocument.presentationml.presentation"

namespace DocumentProcessor

/-- Try-block body of `wordToPdf`: extract the raw text with mammoth,
then render it through createTextPdf under the pdf output name. -/
def wordToPdfBody (o : ConvOracles) (file : FileInput) : Except String Blob := do
  let result ← o.extractRawText
  o.createTextPdf result (replaceExtWithPdf file.name)

/-- Model of `DocumentProcessor.wordToPdf`: the try-block body with any
failure replaced by the generic error message. -/
def wordToPdf (o : ConvOracles) (file : FileInput) : Except String Blob :=
  match wordToPdfBody o file with
  | .ok blob => .ok blob
  | .error _ => .error "Failed to convert Word document"

/-- The sheet-concatenation loop of `excelToPdf`: every sheet serialized
to CSV, prefixed by its name, accumulated in order. -/
def excelContent (workbook : Workbook) (sheetToCsv : Sheet → String) : String :=
  workbook.sheetNames.foldl
    (fun content sheetName =>
      content ++ "Sheet: " ++ sheetName ++ "\n" ++
        sheetToCsv (workbook.sheets sheetName) ++ "\n\n")
    ""

/-- Try-block body of `excelToPdf`. -/
def excelToPdfBody (o : ConvOracles) (file : FileInput) : Except String Blob := do
  let workbook ← o.xlsxRead
  o.createTextPdf (excelContent workbook o.sheetToCsv) (replaceExtWithPdf file.name)

/-- Model of `DocumentProcessor.excelToPdf`. -/
def excelToPdf (o : ConvOracles) (file : FileInput) : Except String Blob :=
  match excelToPdfBody o file with
  | .ok blob => .ok blob
  | .error _ => .error "Failed to convert Excel document"

/-- The fixed placeholder paragraph of `powerPointToPdf`. -/
def powerPointContent (name : String) : String :=
  "PowerPoint Presentation: " ++ name ++
    "\n\nThis is a simplified conversion. The original presentation contained slides that would need specialized processing to maintain formatting."

/-- Try-block body of `powerPointToPdf`. -/
def powerPointToPdfBody (o : ConvOracles) (file : FileInput) : Except String Blob :=
  o.createTextPdf (powerPointContent file.name) (replaceExtWithPdf file.name)

/-- Model of `DocumentProcessor.powerPointToPdf`. -/
def powerPointToPdf (o : ConvOracles) (file : FileInput) : Except String Blob :=
  match powerPointToPdfBody o file with
  | .ok blob => .ok blob
  | .error _ => .error "Failed to convert PowerPoint document"

/-- The fixed placeholder paragraph of `pdfToWord`. -/
def pdfToWordContent (name : String) : String :=
  "Extracted content from: " ++ name ++
    "\n\nThis is a simplified text extraction from the PDF document. Advanced formatting, images, and complex layouts may not be preserved."

/-- Try-block body of `pdfToWord`: wraps the placeholder text in a blob
tagged with the Word MIME type; no library call is awaited. -/
def pdfToWordBody (o : ConvOracles) (file : FileInput) : Except String Blob :=
  .ok { data := pdfToWordContent file.name, mime := wordMime }

/-- Model of `DocumentProcessor.pdfToWord`. -/
def pdfToWord (o : ConvOracles) (file : FileInput) : Except String Blob :=
  match pdfToWordBody o file with
  | .ok blob => .ok blob
  | .error _ => .error "Failed to convert PDF to Word"

/-- The array-of-arrays handed by `pdfToExcel` to `aoa_to_sheet`. -/
def pdfToExcelRows (name : String) : List (List String) :=
  [["Extracted from PDF:", name],
   ["Note:", "This is a simplified extraction"],
   ["Column 1", "Column 2", "Column 3"],
   ["Data 1", "Data 2", "Data 3"]]

/-- Try-block body of `pdfToExcel`: build the fixed rows, write them as
an xlsx workbook with sheet name "Extracted Data", and wrap the bytes
in a spreadsheet-typed blob. -/
def pdfToExcelBody (o : ConvOracles) (file : FileInput) : Except String Blob := do
  let excelBuffer ← o.xlsxWrite (pdfToExcelRows file.name) "Extracted Data"
  .ok { data := excelBuffer, mime := xlsxMime }

/-- Model of `DocumentProcessor.pdfToExcel`. -/
def pdfToExcel (o : ConvOracles) (file : FileInput) : Except String Blob :=
  match pdfToExcelBody o file with
  | .ok blob => .ok blob
  | .error _ => .error "Failed to convert PDF to Excel"

/-- The fixed placeholder paragraph of `pdfToPowerPoint`. -/
def pdfToPowerPointContent (name : String) : String :=
  "PowerPoint conversion from: " ++ name ++
    "\n\nThis is a simplified conversion. Each PDF page would typically become a slide."

/-- Try-block body of `pdfToPowerPoint`. -/
def pdfToPowerPointBody (o : ConvOracles) (file : FileInput) : Except String Blob :=
  .ok { data := pdfToPowerPointContent file.name, mime := pptMime }

/-- Model of `DocumentProcessor.pdfToPowerPoint`. -/
def pdfToPowerPoint (o : ConvOracles) (file : FileInput) : Except String Blob :=
  match pdfToPowerPointBody o file with
  | .ok blob => .ok blob
  | .error _ => .error "Failed to convert PDF to PowerPoint"

end DocumentProcessor

/-- The six Document Converter entry points. -/
inductive ConvMethod
  | word
  | excel
  | powerPoint
  | toWord
  | toExcel
  | toPowerPoint
deriving DecidableEq

/-- The try-block body of each method. -/
def tryBody : ConvMethod → ConvOracles → FileInput → Except String Blob
  | .word, o, f => DocumentProcessor.wordToPdfBody o f
  | .excel, o, f => DocumentProcessor.excelToPdfBody o f
  | .powerPoint, o, f => DocumentProcessor.powerPointToPdfBody o f
  | .toWord, o, f => DocumentProcessor.pdfToWordBody o f
  | .toExcel, o, f => DocumentProcessor.pdfToExcelBody o f
  | .toPowerPoint, o, f => DocumentProcessor.pdfToPowerPointBody o f

/-- Dispatch to each full method (try block plus catch boundary). -/
def runConv : ConvMethod → ConvOracles → FileInput → Except String Blob
  | .word, o, f => DocumentProcessor.wordToPdf o f
  | .excel, o, f => DocumentProcessor.excelToPdf o f
  | .powerPoint, o, f => DocumentProcessor.powerPointToPdf o f
  | .toWord, o, f => DocumentProcessor.pdfToWord o f
  | .toExcel, o, f => DocumentProcessor.pdfToExcel o f
  | .toPowerPoint, o, f => DocumentProcessor.pdfToPowerPoint o f

/-- The generic error message each method rethrows. -/
def genericMsg : ConvMethod → String
  | .word => "Failed to convert Word document"
  | .excel => "Failed to convert Excel document"
  | .powerPoint => "Failed to convert PowerPoint document"
  | .toWord => "Failed to convert PDF to Word"
  | .toExcel => "Failed to convert PDF to Excel"
  | .toPowerPoint => "Failed to convert PDF to PowerPoint"

/-- Claim C1: whenever the try-block body of any Document Converter
method fails with any error value e, the method returns exactly its
fixed, operation-named message, beginning "Failed to convert"; the
original error value e does not appear in the result. -/
theorem convErrorBoundary (m : ConvMethod) (o : ConvOracles) (f : FileInput) (e : String)
    (h : tryBody m o f = .error e) :
    runConv m o f = .error (genericMsg m) ∧
    ∃ rest, genericMsg m = "Failed to convert " ++ rest := by
  cases m
  case word =>
    refine ⟨?_, "Word document", rfl⟩
    simp only [runConv, DocumentProcessor.wordToPdf, tryBody] at h ⊢
    rw [h]
    rfl
  case excel =>
    refine ⟨?_, "Excel document", rfl⟩
    simp only [runConv, DocumentProcessor.excelToPdf, tryBody] at h ⊢
    rw [h]
    rfl
  case powerPoint =>
    refine ⟨?_, "PowerPoint document", rfl⟩
    simp only [runConv, DocumentProcessor.powerPointToPdf, tryBody] at h ⊢
    rw [h]
    rfl
  case toWord =>
    refine ⟨?_, "PDF to Word", rfl⟩
    simp only [runConv, DocumentProcessor.pdfToWord, tryBody] at h ⊢
    rw [h]
    rfl
  case toExcel =>
    refine ⟨?_, "PDF to Excel", rfl⟩
    simp only [runConv, DocumentProcessor.pdfToExcel, tryBody] at h ⊢
    rw [h]
    rfl
  case toPowerPoint =>
    refine ⟨?_, "PDF to PowerPoint", rfl⟩
    simp only [runConv, DocumentProcessor.pdfToPowerPoint, tryBody] at h ⊢
    rw [h]
    rfl

/-- Oracle bundle in which every awaited library call rejects. -/
def failingOracles : ConvOracles where
  extractRawText := .error "mammoth exploded"
  xlsxRead := .error "xlsx exploded"
  sheetToCsv := fun _ => ""
  createTextPdf := fun _ _ => .error "jsPDF exploded"
  xlsxWrite := fun _ _ => .error "xlsx write exploded"

/-- Witness for claim C1: with a failing extraction, wordToPdf returns
the generic message and not the original error. -/
theorem convErrorBoundary_witness :
    runConv .word failingOracles ⟨"report.docx"⟩ =
      .error "Failed to convert Word document" :=
  (convErrorBoundary .word failingOracles ⟨"report.docx"⟩ "mammoth exploded" rfl).1

/-- Counterexample to claim C7 as stated: the spreadsheet built by
pdfToExcel does not consist of two metadata rows plus one sample row
(three rows); it has four rows. -/
theorem pdfToExcelRows_shape_cex :
    ¬ ∃ meta1 meta2 sample : List String,
        DocumentProcessor.pdfToExcelRows "input.pdf" = [meta1, meta2, sample] := by
  rintro ⟨m1, m2, s, h⟩
  have hlen := congrArg List.length h
  simp [DocumentProcessor.pdfToExcelRows] at hlen

/-- Claim C7 (amended): for every input file, pdfToExcel builds the
fixed spreadsheet consisting of two metadata rows (the first naming the
input file), a 3-column header row, and a 3-column sample row,
independent of the input's content, and returns the written workbook as
a spreadsheet-typed blob. -/
theorem pdfToExcel_fixed_rows (o : ConvOracles) (f : FileInput) (buf : String)
    (h : o.xlsxWrite (DocumentProcessor.pdfToExcelRows f.name) "Extracted Data" = .ok buf) :
    DocumentProcessor.pdfToExcel o f = .ok { data := buf, mime := xlsxMime } ∧
    DocumentProcessor.pdfToExcelRows f.name =
      [["Extracted from PDF:", f.name],
       ["Note:", "This is a simplified extraction"],
       ["Column 1", "Column 2", "Column 3"],
       ["Data 1", "Data 2", "Data 3"]] ∧
    (DocumentProcessor.pdfToExcelRows f.name).map List.length = [2, 2, 3, 3] := by
  refine ⟨?_, rfl, rfl⟩
  simp only [DocumentProcessor.pdfToExcel, DocumentProcessor.pdfToExcelBody, h]
  rfl

/-- Oracle bundle in which every awaited library call succeeds. -/
def okOracles : ConvOracles where
  extractRawText := .ok "raw text"
  xlsxRead := .ok { sheetNames := [], sheets := fun _ => ("" : String) }
  sheetToCsv := fun s => s
  createTextPdf := fun content _ => .ok { data := content, mime := "application/pdf" }
  xlsxWrite := fun _ _ => .ok "xlsx bytes"

/-- Witness for the amended claim C7 on a concrete input file. -/
theorem pdfToExcel_fixed_rows_witness :
    DocumentProcessor.pdfToExcel okOracles ⟨"input.pdf"⟩ =
      .ok { data := "xlsx bytes", mime := xlsxMime } :=
  (pdfToExcel_fixed_rows okOracles ⟨"input.pdf"⟩ "xlsx bytes" rfl).1

end PDFConverter
